import Mathlib

/-!
Verification of the rpad document model (src/main.rs).

The application state `RpadApp` and its operations `new_file`, `open_file`,
`save_to_path`, `save_as_file`, `save_file`, `find_and_replace`, and the
status-bar computation are embedded from the Rust source.  File-system
effects (the `rfd::FileDialog` pickers and `std::fs` reads/writes) are
modelled explicitly: the picker result is an `Option String` argument, the
gateway read/write functions are arguments of type
`String → Except String String` resp. `String → String → Except String Unit`,
and each file-touching operation returns — besides the new state — the list
of diagnostics it printed to stderr and the lists of paths it attempted to
read resp. write.
-/

/-- The application state, field for field the Rust struct `RpadApp`
(src/main.rs lines 9-20).  `PathBuf` is modelled as `String` and the
`f32` font size as a rational number (no arithmetic is ever performed
on it by the modelled operations). -/
structure RpadApp where
  content : String
  current_file : Option String
  is_modified : Bool
  font_size : ℚ
  word_wrap : Bool
  show_about : Bool
  find_text : String
  replace_text : String
  show_find_replace : Bool
  status_bar : Bool
deriving DecidableEq, Repr

/-- The `Default` impl for `RpadApp` (src/main.rs lines 22-37). -/
def defaultApp : RpadApp :=
  { content := ""
    current_file := none
    is_modified := false
    font_size := 14
    word_wrap := true
    show_about := false
    find_text := ""
    replace_text := ""
    show_find_replace := false
    status_bar := true }

/-- Result of an operation that may touch the file system: the new
application state, the diagnostics printed via `eprintln!`, and the paths
for which a storage read resp. write was attempted. -/
structure OpResult where
  app : RpadApp
  diags : List String
  reads : List String
  writes : List String
deriving DecidableEq, Repr

/-- `RpadApp::new_file` (src/main.rs lines 51-58): clear the buffer, drop
the current file, clear the modified flag.  (The `if self.is_modified`
branch in the source is empty — only a comment — and has no effect.) -/
def new_file (a : RpadApp) : RpadApp :=
  { a with content := "", current_file := none, is_modified := false }

/-- `RpadApp::open_file` (src/main.rs lines 60-77): if the file dialog
yields a path, read it; on success install the text, the path and clear
the modified flag; on failure print a diagnostic and change nothing. -/
def open_file (pick : Option String) (read : String → Except String String)
    (a : RpadApp) : OpResult :=
  match pick with
  | none => ⟨a, [], [], []⟩
  | some path =>
    match read path with
    | Except.ok c =>
        ⟨{ a with content := c, current_file := some path, is_modified := false },
         [], [path], []⟩
    | Except.error e =>
        ⟨a, ["Failed to open file: " ++ e], [path], []⟩

/-- `RpadApp::save_to_path` (src/main.rs lines 96-106): write the buffer
to `path`; on success record the path and clear the modified flag; on
failure print a diagnostic and change nothing. -/
def save_to_path (write : String → String → Except String Unit)
    (path : String) (a : RpadApp) : OpResult :=
  match write path a.content with
  | Except.ok _ =>
      ⟨{ a with current_file := some path, is_modified := false }, [], [], [path]⟩
  | Except.error e =>
      ⟨a, ["Failed to save file: " ++ e], [], [path]⟩

/-- `RpadApp::save_as_file` (src/main.rs lines 87-94): if the save dialog
yields a path, delegate to `save_to_path`; otherwise do nothing. -/
def save_as_file (pick : Option String)
    (write : String → String → Except String Unit) (a : RpadApp) : OpResult :=
  match pick with
  | none => ⟨a, [], [], []⟩
  | some path => save_to_path write path a

/-- `RpadApp::save_file` (src/main.rs lines 79-85): save to the current
file if there is one, otherwise behave as Save As. -/
def save_file (pick : Option String)
    (write : String → String → Except String Unit) (a : RpadApp) : OpResult :=
  match a.current_file with
  | some path => save_to_path write path a
  | none => save_as_file pick write a

/-- One step of Rust `str::replace` with a non-empty pattern, on character
lists.  `skip` counts characters of an already-emitted match that still
have to be consumed; at `skip = 0`, if `find` matches at the current
position the replacement is emitted and `find.length` characters are
consumed (one here, `find.length - 1` via the skip counter), otherwise the
current character is copied.  This is exactly the leftmost,
non-overlapping scan `String::replace` performs via `match_indices`. -/
def replAux (find rep : List Char) : List Char → Nat → List Char
  | [], _ => []
  | _ :: rest, skip + 1 => replAux find rep rest skip
  | c :: rest, 0 =>
    if find.isPrefixOf (c :: rest) then
      rep ++ replAux find rep rest (find.length - 1)
    else
      c :: replAux find rep rest 0

/-- Rust `str::replace` on character lists: every leftmost non-overlapping
occurrence of `find` is replaced by `rep`.  An empty pattern matches at
every character boundary, as in Rust (`"ab".replace("", "x") == "xaxbx"`);
`find_and_replace` never calls this case. -/
def listReplace (find rep s : List Char) : List Char :=
  if find = [] then rep ++ s.flatMap (fun c => c :: rep)
  else replAux find rep s 0

/-- `content.replace(&find, &rep)` from the Rust source, on `String`. -/
def strReplace (s find rep : String) : String :=
  ⟨listReplace find.data rep.data s.data⟩

/-- `RpadApp::find_and_replace` (src/main.rs lines 119-127): when both
texts are non-empty, replace globally; install the result and set the
modified flag only when it differs from the current content. -/
def find_and_replace (a : RpadApp) : RpadApp :=
  if a.find_text ≠ "" ∧ a.replace_text ≠ "" then
    let new_content := strReplace a.content a.find_text a.replace_text
    if new_content ≠ a.content then
      { a with content := new_content, is_modified := true }
    else a
  else a

/-- `pat` occurs as a contiguous substring of `s` (Rust `str::contains`
with a literal pattern), as a boolean scan. -/
def containsSub (s pat : List Char) : Bool :=
  match s with
  | [] => pat.isEmpty
  | _ :: rest => pat.isPrefixOf s || containsSub rest pat

/-- The number of lines reported by the status bar, i.e.
`self.content.lines().count()` (src/main.rs line 242).  The Rust function
`str::lines` splits at `'\n'` (a preceding `'\r'` is stripped from the
segment but creates no extra line), and a final line terminator produces
no trailing empty line; the empty string yields no lines at all.  Hence
the count is: one line per `'\n'` terminator, plus one unterminated final
line when the content is non-empty and does not end in `'\n'`. -/
def lines_count (s : List Char) : Nat :=
  s.count '\n' + (if s = [] then 0 else if s.getLast? = some '\n' then 0 else 1)

/-- Drop the first line of `s` together with its terminating `'\n'`;
yields `[]` when `s` has no newline. -/
def dropThrough : List Char → List Char
  | [] => []
  | c :: rest => if c = '\n' then rest else dropThrough rest

/-- Modelled from the spec: the count of newline-delimited segments of the
content, one segment per recursion step, each step consuming one segment
and its (optional, for the final segment) `'\n'` terminator; the empty
content has zero segments.  This is the independent specification the
line count of the status bar is compared against. -/
def linesSpec : List Char → Nat
  | [] => 0
  | c :: rest => 1 + linesSpec (dropThrough (c :: rest))
termination_by s => s.length
decreasing_by
  simp only [dropThrough, List.length_cons]
  split
  · omega
  · exact Nat.lt_succ_of_le (by
      induction rest with
      | nil => exact Nat.le_refl _
      | cons d t ih =>
        simp only [dropThrough]
        split
        · exact Nat.le_succ _
        · exact Nat.le_trans ih (Nat.le_succ _))

/-- What the status-bar panel derives each redraw (src/main.rs
lines 239-255): the line count, the character count
(`self.content.chars().count()`, the number of Unicode scalar values),
and the `"Modified"`/`"Ready"` indicator. -/
structure StatusSummary where
  lines : Nat
  chars : Nat
  indicator : String
deriving DecidableEq, Repr

/-- The status-bar computation as a function of the application state. -/
def compute_status_summary (a : RpadApp) : StatusSummary :=
  { lines := lines_count a.content.data
    chars := a.content.data.length
    indicator := if a.is_modified then "Modified" else "Ready" }

/-! ### Supporting lemmas -/

theorem dropThrough_length_le (s : List Char) : (dropThrough s).length ≤ s.length := by
  induction s with
  | nil => exact Nat.le_refl _
  | cons c rest ih =>
    simp only [dropThrough]
    split
    · exact Nat.le_succ _
    · exact Nat.le_trans ih (Nat.le_succ _)

theorem replAux_skip (find rep : List Char) :
    ∀ (s : List Char) (k : Nat), replAux find rep s k = replAux find rep (s.drop k) 0 := by
  intro s
  induction s with
  | nil => intro k; simp [replAux]
  | cons c rest ih =>
    intro k
    cases k with
    | zero => rfl
    | succ k =>
      simp only [replAux, List.drop_succ_cons]
      exact ih k

theorem replAux_no_occ (find rep : List Char) :
    ∀ s : List Char, containsSub s find = false → replAux find rep s 0 = s := by
  intro s
  induction s with
  | nil => intro _; rfl
  | cons c rest ih =>
    intro h
    rw [containsSub] at h
    obtain ⟨h1, h2⟩ := Bool.or_eq_false_iff.mp h
    simp [replAux, h1, ih h2]

theorem replAux_self (find : List Char) (hf : find ≠ []) :
    ∀ s : List Char, replAux find find s 0 = s := by
  have H : ∀ (n : Nat) (s : List Char), s.length ≤ n → replAux find find s 0 = s := by
    intro n
    induction n with
    | zero =>
      intro s hs
      have hnil : s = [] := List.eq_nil_of_length_eq_zero (Nat.le_zero.mp hs)
      subst hnil; rfl
    | succ n ih =>
      intro s hs
      cases s with
      | nil => rfl
      | cons c rest =>
        by_cases hp : find.isPrefixOf (c :: rest)
        · obtain ⟨t, ht⟩ := List.isPrefixOf_iff_prefix.mp hp
          obtain ⟨m, hm⟩ : ∃ m, find.length = m + 1 := by
            cases find with
            | nil => exact absurd rfl hf
            | cons x xs => exact ⟨xs.length, rfl⟩
          have hdrop : rest.drop (find.length - 1) = t := by
            have h1 : (find ++ t).drop find.length = t := List.drop_left find t
            rw [ht, hm, List.drop_succ_cons] at h1
            simpa [hm] using h1
          have hlen : t.length ≤ n := by
            have h2 : find.length + t.length = rest.length + 1 := by
              have h3 := congrArg List.length ht
              simpa [List.length_append] using h3
            have h4 : rest.length + 1 ≤ n + 1 := by simpa using hs
            omega
          simp only [replAux, if_pos hp]
          rw [replAux_skip, hdrop, ih t hlen]
          exact ht
        · have hr : rest.length ≤ n := by
            have h4 : rest.length + 1 ≤ n + 1 := by simpa using hs
            omega
          simp [replAux, hp, ih rest hr]
  intro s
  exact H s.length s (Nat.le_refl _)

theorem string_data_ne_nil {s : String} (h : s ≠ "") : s.data ≠ [] :=
  fun hd => h (String.ext (hd.trans rfl))

theorem strReplace_no_occ (s find rep : String)
    (h : containsSub s.data find.data = false) (hf : find ≠ "") :
    strReplace s find rep = s := by
  unfold strReplace listReplace
  rw [if_neg (string_data_ne_nil hf)]
  rw [replAux_no_occ find.data rep.data s.data h]

theorem strReplace_self (s find : String) (hf : find ≠ "") :
    strReplace s find find = s := by
  unfold strReplace listReplace
  rw [if_neg (string_data_ne_nil hf)]
  rw [replAux_self find.data (string_data_ne_nil hf) s.data]

theorem lines_count_nil : lines_count [] = 0 := rfl

theorem lines_count_singleton (c : Char) : lines_count [c] = 1 := by
  by_cases hc : c = '\n' <;> simp [lines_count, hc, List.count_cons, List.count_nil]

theorem lines_count_cons_newline (s : List Char) (hs : s ≠ []) :
    lines_count ('\n' :: s) = 1 + lines_count s := by
  match s with
  | d :: t =>
    simp only [lines_count, List.count_cons, List.getLast?_cons_cons,
      beq_self_eq_true, if_true, reduceCtorEq, if_false]
    split <;> omega

theorem lines_count_cons_of_ne (c : Char) (s : List Char) (hc : c ≠ '\n') (hs : s ≠ []) :
    lines_count (c :: s) = lines_count s := by
  match s with
  | d :: t =>
    simp only [lines_count, List.count_cons, List.getLast?_cons_cons, hc,
      beq_iff_eq, if_false, reduceCtorEq]
    split <;> omega

theorem lines_count_step : ∀ s : List Char, s ≠ [] →
    lines_count s = 1 + lines_count (dropThrough s) := by
  intro s
  induction s with
  | nil => intro h; exact absurd rfl h
  | cons c rest ih =>
    intro _
    by_cases hc : c = '\n'
    · subst hc
      cases rest with
      | nil => decide
      | cons d t =>
        rw [dropThrough, if_pos rfl]
        exact lines_count_cons_newline (d :: t) (by simp)
    · cases rest with
      | nil =>
        simp [lines_count_singleton, dropThrough, hc, lines_count_nil]
      | cons d t =>
        have h1 : dropThrough (c :: d :: t) = dropThrough (d :: t) := by
          simp [dropThrough, hc]
        rw [h1, lines_count_cons_of_ne c (d :: t) hc (by simp)]
        exact ih (by simp)

theorem linesSpec_eq_lines_count : ∀ s : List Char, linesSpec s = lines_count s := by
  have H : ∀ (n : Nat) (s : List Char), s.length ≤ n → linesSpec s = lines_count s := by
    intro n
    induction n with
    | zero =>
      intro s hs
      have hnil : s = [] := List.eq_nil_of_length_eq_zero (Nat.le_zero.mp hs)
      subst hnil
      simp [linesSpec, lines_count]
    | succ n ih =>
      intro s hs
      cases s with
      | nil => simp [linesSpec, lines_count]
      | cons c rest =>
        have hlen : (dropThrough (c :: rest)).length ≤ n := by
          have h2 : (dropThrough (c :: rest)).length ≤ rest.length := by
            simp only [dropThrough]
            split
            · exact Nat.le_refl _
            · exact dropThrough_length_le rest
          have h3 : rest.length + 1 ≤ n + 1 := by simpa using hs
          omega
        calc linesSpec (c :: rest)
            = 1 + linesSpec (dropThrough (c :: rest)) := by rw [linesSpec]
          _ = 1 + lines_count (dropThrough (c :: rest)) := by rw [ih _ hlen]
          _ = lines_count (c :: rest) := (lines_count_step (c :: rest) (by simp)).symm
  intro s
  exact H s.length s (Nat.le_refl _)

theorem find_and_replace_preserves_current_file (a : RpadApp) :
    (find_and_replace a).current_file = a.current_file := by
  unfold find_and_replace
  by_cases h1 : a.find_text ≠ "" ∧ a.replace_text ≠ ""
  · rw [if_pos h1]
    show (if strReplace a.content a.find_text a.replace_text ≠ a.content
          then { a with content := strReplace a.content a.find_text a.replace_text,
                        is_modified := true }
          else a).current_file = a.current_file
    by_cases h2 : strReplace a.content a.find_text a.replace_text ≠ a.content
    · rw [if_pos h2]
    · rw [if_neg h2]
  · rw [if_neg h1]

/-! ### The claims -/

/-- C1: for every content and non-empty `find_text` and `replace_text`,
`find_and_replace` performs the literal, case-sensitive, global, leftmost
non-overlapping substitution `strReplace`; when the substitution changes
the content, the content is updated and `is_modified` is set, and when
`find_text` does not occur in the content, nothing changes at all. -/
theorem find_and_replace_global_subst (a : RpadApp)
    (hf : a.find_text ≠ "") (hr : a.replace_text ≠ "") :
    (strReplace a.content a.find_text a.replace_text ≠ a.content →
      find_and_replace a =
        { a with content := strReplace a.content a.find_text a.replace_text,
                 is_modified := true }) ∧
    (containsSub a.content.data a.find_text.data = false →
      find_and_replace a = a) := by
  constructor
  · intro hchange
    unfold find_and_replace
    rw [if_pos (And.intro hf hr)]
    show (if strReplace a.content a.find_text a.replace_text ≠ a.content
          then { a with content := strReplace a.content a.find_text a.replace_text,
                        is_modified := true }
          else a) = _
    rw [if_pos hchange]
  · intro hno
    have heq : strReplace a.content a.find_text a.replace_text = a.content :=
      strReplace_no_occ a.content a.find_text a.replace_text hno hf
    unfold find_and_replace
    rw [if_pos (And.intro hf hr)]
    show (if strReplace a.content a.find_text a.replace_text ≠ a.content
          then { a with content := strReplace a.content a.find_text a.replace_text,
                        is_modified := true }
          else a) = _
    rw [if_neg (fun hcon => hcon heq)]

/-- C1 witness: the spec scenario — content `"hello world hello"`, find
`"hello"`, replace `"hi"` yields `"hi world hi"` with the modified flag
set. -/
theorem find_and_replace_global_subst_witness :
    find_and_replace { defaultApp with
        content := "hello world hello"
        find_text := "hello"
        replace_text := "hi" } =
      { defaultApp with
        content := "hi world hi"
        find_text := "hello"
        replace_text := "hi"
        is_modified := true } := by
  have h := (find_and_replace_global_subst
    { defaultApp with
      content := "hello world hello"
      find_text := "hello"
      replace_text := "hi" }
    (by decide) (by decide)).1 (by decide)
  rw [h]
  decide

/-- C2: a failing load leaves every field of the state unchanged and
produces a diagnostic; a successful load installs the text of the file, the
path, and clears the modified flag. -/
theorem open_file_load_spec (a : RpadApp) (path : String)
    (read : String → Except String String) :
    (∀ e, read path = Except.error e →
        (open_file (some path) read a).app = a ∧
        (open_file (some path) read a).diags ≠ []) ∧
    (∀ t, read path = Except.ok t →
        (open_file (some path) read a).app =
          { a with content := t, current_file := some path, is_modified := false }) := by
  constructor
  · intro e he
    simp [open_file, he]
  · intro t ht
    simp [open_file, ht]

/-- C2 witness: loading a non-existent path leaves the default state
unchanged and produces a diagnostic. -/
theorem open_file_load_spec_witness :
    (open_file (some "missing.txt") (fun _ => Except.error "No such file")
        defaultApp).app = defaultApp ∧
    (open_file (some "missing.txt") (fun _ => Except.error "No such file")
        defaultApp).diags ≠ [] :=
  (open_file_load_spec defaultApp "missing.txt"
    (fun _ => Except.error "No such file")).1 "No such file" rfl

/-- C3: a successful save sets `current_file` to the path and clears the
modified flag; a failing save leaves both exactly as they were and
produces a diagnostic. -/
theorem save_to_path_outcome_spec (a : RpadApp) (path : String)
    (write : String → String → Except String Unit) :
    (write path a.content = Except.ok () →
        (save_to_path write path a).app.current_file = some path ∧
        (save_to_path write path a).app.is_modified = false) ∧
    (∀ e, write path a.content = Except.error e →
        (save_to_path write path a).app.current_file = a.current_file ∧
        (save_to_path write path a).app.is_modified = a.is_modified ∧
        (save_to_path write path a).diags ≠ []) := by
  constructor
  · intro hw
    simp [save_to_path, hw]
  · intro e hw
    simp [save_to_path, hw]

/-- C3 witness: a successful save to `"notes.txt"` records the path and
clears the flag; a save failing with a permission error changes neither
and reports a diagnostic. -/
theorem save_to_path_outcome_spec_witness :
    ((save_to_path (fun _ _ => Except.ok ()) "notes.txt" defaultApp).app.current_file
        = some "notes.txt" ∧
     (save_to_path (fun _ _ => Except.ok ()) "notes.txt" defaultApp).app.is_modified
        = false) ∧
    ((save_to_path (fun _ _ => Except.error "Permission denied") "notes.txt"
        defaultApp).app.current_file = defaultApp.current_file ∧
     (save_to_path (fun _ _ => Except.error "Permission denied") "notes.txt"
        defaultApp).app.is_modified = defaultApp.is_modified ∧
     (save_to_path (fun _ _ => Except.error "Permission denied") "notes.txt"
        defaultApp).diags ≠ []) :=
  ⟨(save_to_path_outcome_spec defaultApp "notes.txt" (fun _ _ => Except.ok ())).1 rfl,
   (save_to_path_outcome_spec defaultApp "notes.txt"
      (fun _ _ => Except.error "Permission denied")).2 "Permission denied" rfl⟩

/-- C4: a save attempt never alters the in-memory buffer, whether the
write succeeds or fails. -/
theorem save_to_path_preserves_content (a : RpadApp) (path : String)
    (write : String → String → Except String Unit) :
    (save_to_path write path a).app.content = a.content := by
  unfold save_to_path
  cases write path a.content <;> rfl

/-- C5: `find_and_replace` with an empty find text or an empty replace
text is a no-op on the whole state. -/
theorem find_and_replace_empty_noop (a : RpadApp)
    (h : a.find_text = "" ∨ a.replace_text = "") :
    find_and_replace a = a := by
  unfold find_and_replace
  rw [if_neg (fun hcon => by
    cases h with
    | inl h => exact hcon.1 h
    | inr h => exact hcon.2 h)]

/-- C5 witness: with an empty find text (and a non-empty replace text)
nothing changes, even though the content is non-empty. -/
theorem find_and_replace_empty_noop_witness :
    find_and_replace { defaultApp with content := "abc", replace_text := "x" } =
      { defaultApp with content := "abc", replace_text := "x" } :=
  find_and_replace_empty_noop
    { defaultApp with content := "abc", replace_text := "x" } (Or.inl rfl)

/-- C6: after `new_file` the content is empty, no path is associated and
the modified flag is clear, regardless of the prior state; the operation
is total. -/
theorem new_file_fresh_state (a : RpadApp) :
    (new_file a).content = "" ∧ (new_file a).current_file = none ∧
    (new_file a).is_modified = false :=
  ⟨rfl, rfl, rfl⟩

/-- C7 counterexample: the claim "source_path is updated only by a
successful save" is false — a successful load also updates it: opening
`"a.txt"` from the default state (no current file) and reading it
successfully sets `current_file` to `some "a.txt"` although no save took
place. -/
theorem source_path_load_update_cex :
    (open_file (some "a.txt") (fun _ => Except.ok "text") defaultApp).app.current_file ≠
      defaultApp.current_file := by
  decide

/-- C7 amended: across the Document operations, `current_file` is changed
only by `new_file` (which clears it), by a successful load, or by a
successful save — never by a failed load, a failed save, a cancelled
dialog, or `find_and_replace`; whenever a load or save succeeds it holds
the path just read from resp. written to. -/
theorem source_path_update_policy (a : RpadApp) (p t e : String) :
    (find_and_replace a).current_file = a.current_file ∧
    (new_file a).current_file = none ∧
    (∀ read, (open_file none read a).app.current_file = a.current_file) ∧
    (open_file (some p) (fun _ => Except.error e) a).app.current_file = a.current_file ∧
    (open_file (some p) (fun _ => Except.ok t) a).app.current_file = some p ∧
    (∀ write, (save_as_file none write a).app.current_file = a.current_file) ∧
    (save_to_path (fun _ _ => Except.error e) p a).app.current_file = a.current_file ∧
    (save_to_path (fun _ _ => Except.ok ()) p a).app.current_file = some p :=
  ⟨find_and_replace_preserves_current_file a, rfl, fun _ => rfl, rfl, rfl,
   fun _ => rfl, rfl, rfl⟩

/-- C8: the status summary is a pure function of the state — it depends
only on the content and the modified flag; its line count equals the
count of newline-delimited segments `linesSpec` (final terminator
optional, zero segments for empty content — the convention the code
consistently uses); its character count is the number of Unicode scalar
values of the content; and a fresh document reports 0 lines, 0
characters, indicator `"Ready"`. -/
theorem status_summary_spec :
    (∀ a b : RpadApp, a.content = b.content → a.is_modified = b.is_modified →
        compute_status_summary a = compute_status_summary b) ∧
    (∀ a : RpadApp, (compute_status_summary a).lines = linesSpec a.content.data) ∧
    (∀ a : RpadApp, (compute_status_summary a).chars = a.content.data.length) ∧
    (∀ a : RpadApp, compute_status_summary (new_file a) = ⟨0, 0, "Ready"⟩) := by
  refine ⟨?_, ?_, ?_, ?_⟩
  · intro a b hc hm
    unfold compute_status_summary
    rw [hc, hm]
  · intro a
    exact (linesSpec_eq_lines_count a.content.data).symm
  · intro a
    rfl
  · intro a
    rfl

/-- C8 witness: two states with the same content `"a\nb"` and the same
flag but different font sizes get the same status summary. -/
theorem status_summary_spec_witness :
    compute_status_summary { defaultApp with content := "a\nb", font_size := 20 } =
      compute_status_summary { defaultApp with content := "a\nb" } :=
  status_summary_spec.1
    { defaultApp with content := "a\nb", font_size := 20 }
    { defaultApp with content := "a\nb" } rfl rfl

/-- C9: when the file picker yields no path, Open and Save As leave the
whole state (buffer, path, flags, display preferences) unchanged, print
no diagnostic, and attempt no storage read or write. -/
theorem cancelled_dialog_noop (a : RpadApp)
    (read : String → Except String String)
    (write : String → String → Except String Unit) :
    open_file none read a = ⟨a, [], [], []⟩ ∧
    save_as_file none write a = ⟨a, [], [], []⟩ :=
  ⟨rfl, rfl⟩

/-- C10: replacing a non-empty string by itself is the identity on the
state: content is unchanged and the modified flag is not set, even when
the string occurs in the content. -/
theorem find_and_replace_identity_subst (a : RpadApp)
    (heq : a.find_text = a.replace_text) (hne : a.find_text ≠ "") :
    find_and_replace a = a := by
  have hstr : strReplace a.content a.find_text a.replace_text = a.content := by
    rw [← heq]
    exact strReplace_self a.content a.find_text hne
  unfold find_and_replace
  rw [if_pos (And.intro hne (heq ▸ hne))]
  show (if strReplace a.content a.find_text a.replace_text ≠ a.content
        then { a with content := strReplace a.content a.find_text a.replace_text,
                      is_modified := true }
        else a) = a
  rw [if_neg (fun hcon => hcon hstr)]

/-- C10 witness: replacing `"x"` by `"x"` in `"xyx"` (two occurrences)
changes nothing, in particular `is_modified` stays false. -/
theorem find_and_replace_identity_subst_witness :
    find_and_replace { defaultApp with
        content := "xyx"
        find_text := "x"
        replace_text := "x" } =
      { defaultApp with
        content := "xyx"
        find_text := "x"
        replace_text := "x" } :=
  find_and_replace_identity_subst
    { defaultApp with content := "xyx", find_text := "x", replace_text := "x" }
    rfl (by decide)
